import Mathlib

/-!
Verification development for the hono-vs-nextjs comparison page.

The page (App component) holds a single piece of UI state, the active tab of
type TabType, and derives everything displayed from it: the summary panel from
the comparisons record and the detail blocks from the getBlocks switch.
CodeBlock renders a code string asynchronously through shiki's codeToHtml;
FileTree renders a tree string verbatim. The embedding below mirrors those
source definitions; the large embedded string constants of App.tsx are treated
as opaque distinct data, following the specification's decision to keep the
static prose/code content out of scope.
-/

namespace HonoVsNextjs

/-- The twelve top-level string constants of App.tsx (nextjsFileTree,
honoFileTree, the five code-snippet pairs, and the two RPC snippets). Their
literal text is opaque data; what matters to the page logic is only that they
are twelve distinct strings handed to the renderers. -/
inductive SourceText
  | nextjsFileTree
  | honoFileTree
  | nextjsAuthCode
  | honoAuthCode
  | nextjsErrorCode
  | honoErrorCode
  | nextjsMiddlewareCode
  | honoMiddlewareCode
  | nextjsRoutingCode
  | honoRoutingCode
  | honoRpcServerCode
  | honoRpcClientCode
deriving DecidableEq, Repr

/-- TabType from App.tsx: `type TabType = 'structure' | 'auth' | 'error' |
'middleware' | 'routing'` (the first literal of the union is 'structure'). -/
inductive TabType
  | structure'
  | auth
  | error
  | middleware
  | routing
deriving DecidableEq, BEq, Repr

/-- One value of the comparisons record: `{ title: string; nextjs: string;
hono: string }`. -/
structure Comparison where
  title : String
  nextjs : String
  hono : String
deriving DecidableEq, Repr

/-- The `comparisons: Record<TabType, ...>` object literal of App.tsx, as the
association list of its five key/value pairs in source order. -/
def comparisonsEntries : List (TabType × Comparison) :=
  [ (TabType.structure',
      { title := "File Structure",
        nextjs := "New endpoint = create new file in nested folder",
        hono := "New endpoint = add one line of code" }),
    (TabType.auth,
      { title := "Authentication Middleware",
        nextjs := "Import and call auth function in every route file",
        hono := "Define once as middleware, applies to all matched routes" }),
    (TabType.error,
      { title := "Error Handling",
        nextjs := "Per-route try/catch, inconsistent formats possible",
        hono := "Global error handler, consistent response format" }),
    (TabType.middleware,
      { title := "Middleware",
        nextjs := "Designed for pages, NOT suitable for API layer (official docs)",
        hono := "Perfect for API auth, logging, CORS, validation" }),
    (TabType.routing,
      { title := "Route Registration",
        nextjs := "File-based, implicit from folder structure",
        hono := "Programmatic, explicit with app.get/post/etc" }) ]

/-- Key lookup in the comparisons record (`comparisons[activeTab]`). -/
def comparisons (t : TabType) : Option Comparison :=
  List.lookup t comparisonsEntries

/-- BlockItem from App.tsx: tagged union of a tree block `{ type: 'tree';
tree; title }` and a code block `{ type: 'code'; code; lang; title }`. -/
inductive BlockItem
  | tree (tree : SourceText) (title : String)
  | code (code : SourceText) (lang : String) (title : String)
deriving DecidableEq, Repr

/-- Title of a BlockItem (the `title` field of either variant). -/
def blockTitle : BlockItem → String
  | BlockItem.tree _ title => title
  | BlockItem.code _ _ title => title

/-- getBlocks from App.tsx: the switch on activeTab returning the pair of
display blocks for each tab. The TS switch carries a `default: return []`
branch which is dead code because TabType is a closed union; the match below
covers exactly the five live cases. -/
def getBlocks (activeTab : TabType) : List BlockItem :=
  match activeTab with
  | TabType.structure' =>
      [ BlockItem.tree SourceText.nextjsFileTree "Next.js Route Handlers",
        BlockItem.tree SourceText.honoFileTree "Hono Catch-All Handler" ]
  | TabType.routing =>
      [ BlockItem.code SourceText.nextjsRoutingCode "typescript" "Next.js File-Based Routing",
        BlockItem.code SourceText.honoRoutingCode "typescript" "Hono Programmatic Routing" ]
  | TabType.auth =>
      [ BlockItem.code SourceText.nextjsAuthCode "typescript" "Next.js (Manual Per-Route)",
        BlockItem.code SourceText.honoAuthCode "typescript" "Hono (Middleware Chain)" ]
  | TabType.error =>
      [ BlockItem.code SourceText.nextjsErrorCode "typescript" "Next.js (Inconsistent)",
        BlockItem.code SourceText.honoErrorCode "typescript" "Hono (Global Handler)" ]
  | TabType.middleware =>
      [ BlockItem.code SourceText.nextjsMiddlewareCode "typescript" "Next.js Middleware",
        BlockItem.code SourceText.honoMiddlewareCode "typescript" "Hono Middleware" ]

/-- The tabs array of App.tsx, in source order: id paired with label. -/
def tabs : List (TabType × String) :=
  [ (TabType.structure', "File Structure"),
    (TabType.routing, "Route Registration"),
    (TabType.auth, "Auth Middleware"),
    (TabType.error, "Error Handling"),
    (TabType.middleware, "Middleware") ]

/-- Initial value of the activeTab state:
`useState<TabType>('structure')`. -/
def initialTab : TabType := TabType.structure'

/-- The only mutation of activeTab: the tab button onClick handler
`setActiveTab(tab.id)`, which replaces the state with the clicked id. -/
def selectTab (_s : TabType) (t : TabType) : TabType := t

/-- State after a sequence of user tab selections, starting from the initial
activeTab. -/
def runSelections (evs : List TabType) : TabType :=
  evs.foldl selectTab initialTab

/-- What the Detailed Comparison section displays in one render: the two
summary texts `comparisons[activeTab].nextjs` / `.hono` and the blocks
`getBlocks()`. -/
structure PageView where
  summaryNextjs : String
  summaryHono : String
  blocks : List BlockItem
deriving DecidableEq, Repr

/-- One render of App for a given activeTab. The record access
`comparisons[activeTab]` is modelled through the association-list lookup; the
none branch is the unreachable undefined access. -/
def renderPage (activeTab : TabType) : PageView :=
  { summaryNextjs :=
      match comparisons activeTab with
      | some e => e.nextjs
      | none => ""
    summaryHono :=
      match comparisons activeTab with
      | some e => e.hono
      | none => ""
    blocks := getBlocks activeTab }

/-- Substring containment, used to state "titled containing ...". -/
def containsStr (s sub : String) : Prop :=
  ∃ pre post, s = pre ++ sub ++ post

/-- Output of the FileTree component: the title bar text and the tree text
placed inside the whitespace-preserving pre element. -/
structure FileTreeView where
  titleText : String
  treeText : String
deriving DecidableEq, Repr

/-- FileTree from FileTree.tsx: places its `tree` prop verbatim in the pre
element and its `title` prop in the header. -/
def FileTree (tree : String) (title : String) : FileTreeView :=
  { titleText := title, treeText := tree }

/-- Styled markup produced for a code text. Modelled from the spec: shiki's
codeToHtml lives outside this repository, and the spec pins its contract down
to "result is valid markup preserving the original text's visible characters
exactly, with styling annotations only", with graceful fallback to plain
rendering for an unsupported grammar identifier. The markup is therefore the
preserved text together with whether styling was applied. -/
structure Markup (α : Type) where
  text : α
  styled : Bool
deriving DecidableEq, Repr

/-- Modelled from the spec: the set of grammar identifiers for which the
external grammar source supplies a language definition. The page itself only
ever requests "typescript". -/
def isSupportedLang (lang : String) : Bool :=
  lang == "typescript"

/-- Modelled from the spec: shiki's `codeToHtml(code, { lang, theme })`, the
external highlighting collaborator absent from src/. Per the spec it is a pure
function of (text, language) returning markup that preserves the text exactly,
degrades to plain unstyled markup when the language is unsupported, and never
fails. -/
def codeToHtml {α : Type} (code : α) (lang : String) : Markup α :=
  { text := code, styled := isSupportedLang lang }

/-- State of one mounted CodeBlock component instance (CodeBlock.tsx):
its current (code, lang) props, the highlight promises started by effect runs
whose `.then(setHtml)` has not fired yet (each remembers the (code, lang) it
was called with), and the html state (`useState<string>('')`; none is the
initial empty string). -/
structure CodeBlockState (α : Type) where
  code : α
  lang : String
  pending : List (α × String)
  html : Option (Markup α)
deriving DecidableEq, Repr

/-- Events a mounted CodeBlock can undergo: a parent re-render giving it
(possibly new) props, or the resolution of the i-th still-pending highlight
promise. The scheduler chooses the order of resolutions. -/
inductive CBEvent (α : Type)
  | setProps (code : α) (lang : String)
  | resolve (i : Nat)

/-- Mounting a CodeBlock: the effect runs once on mount, starting a highlight
call for the initial props; html starts as the empty string. -/
def mountCodeBlock {α : Type} (code : α) (lang : String) : CodeBlockState α :=
  { code := code, lang := lang, pending := [(code, lang)], html := none }

/-- One step of a mounted CodeBlock, directly from CodeBlock.tsx.

On new props, the effect with dependency array [code, lang] re-runs exactly
when code or lang changed, starting a fresh `codeToHtml(...).then(setHtml)`
call. The effect returns no cleanup function, so nothing invalidates the
still-pending earlier calls.

On resolution of a pending call, its `.then(setHtml)` fires and overwrites
html with that call's result unconditionally — the source compares no token
and checks no staleness before applying it. -/
def cbStep {α : Type} [DecidableEq α] (s : CodeBlockState α) : CBEvent α → CodeBlockState α
  | CBEvent.setProps c l =>
      if c = s.code ∧ l = s.lang then
        { s with code := c, lang := l }
      else
        { s with code := c, lang := l, pending := s.pending ++ [(c, l)] }
  | CBEvent.resolve i =>
      match s.pending.get? i with
      | some (c, l) =>
          { s with pending := s.pending.eraseIdx i, html := some (codeToHtml c l) }
      | none => s

/-- Running a mounted CodeBlock through a sequence of events. -/
def cbRun {α : Type} [DecidableEq α] (s : CodeBlockState α) (evs : List (CBEvent α)) : CodeBlockState α :=
  evs.foldl cbStep s

/-- A schedule consisting only of promise resolutions. -/
def resolvesOnly {α : Type} (is : List Nat) : List (CBEvent α) :=
  is.map CBEvent.resolve

/-- The rapid topic-switch trace for the left code slot: the page shows topic
routing (block code nextjsRoutingCode), the user clicks auth then error before
any highlight resolves (the slot keeps the same mounted CodeBlock instance:
it is rendered with key 0 as a code block under all three tabs), and then the
three pending promises resolve in reverse order. -/
def staleTrace : List (CBEvent SourceText) :=
  [ CBEvent.setProps SourceText.nextjsAuthCode "typescript",
    CBEvent.setProps SourceText.nextjsErrorCode "typescript",
    CBEvent.resolve 2,
    CBEvent.resolve 1,
    CBEvent.resolve 0 ]

/-! Helper lemmas about the CodeBlock trace model. -/

/-- Invariant of a CodeBlock mounted with fixed props (c, l) under resolution
events only: either its single highlight call is still pending and html is
still the initial empty string, or the call has resolved and html holds its
markup. -/
def SingleCallInv {α : Type} (c : α) (l : String) (s : CodeBlockState α) : Prop :=
  s.pending = [(c, l)] ∧ s.html = none ∨
  s.pending = [] ∧ s.html = some (codeToHtml c l)

theorem singleCallInv_step {α : Type} [DecidableEq α] (c : α) (l : String)
    (s : CodeBlockState α) (i : Nat) (h : SingleCallInv c l s) :
    SingleCallInv c l (cbStep s (CBEvent.resolve i)) := by
  rcases h with ⟨hp, hh⟩ | ⟨hp, hh⟩
  · cases i with
    | zero =>
      right
      simp [cbStep, hp, hh, List.get?]
    | succ n =>
      left
      simp [cbStep, hp, hh, List.get?]
  · right
    simp [cbStep, hp, hh, List.get?]

theorem singleCallInv_run {α : Type} [DecidableEq α] (c : α) (l : String)
    (is : List Nat) :
    ∀ (s : CodeBlockState α), SingleCallInv c l s →
      SingleCallInv c l (cbRun s (resolvesOnly is)) := by
  induction is with
  | nil => intro s h; exact h
  | cons i is ih =>
    intro s h
    have hstep := singleCallInv_step c l s i h
    simpa [cbRun, resolvesOnly] using ih (cbStep s (CBEvent.resolve i)) hstep

/-- A CodeBlock with fixed props whose pending list has emptied displays
exactly the markup of its props, whatever the resolution schedule was. -/
theorem cbRun_complete_html {α : Type} [DecidableEq α] (c : α) (l : String)
    (is : List Nat)
    (h : (cbRun (mountCodeBlock c l) (resolvesOnly is)).pending = []) :
    (cbRun (mountCodeBlock c l) (resolvesOnly is)).html = some (codeToHtml c l) := by
  have hinv : SingleCallInv c l (cbRun (mountCodeBlock c l) (resolvesOnly is)) :=
    singleCallInv_run c l is (mountCodeBlock c l) (Or.inl ⟨rfl, rfl⟩)
  rcases hinv with ⟨hp, _⟩ | ⟨_, hh⟩
  · rw [h] at hp
    cases hp
  · exact hh

/-! Claim theorems. -/

/-- C1: the claim as stated is false of CodeBlock.tsx. The effect
`codeToHtml(code, ...).then(setHtml)` installs no cleanup and compares no
request token, so a superseded call's result is still applied when it
resolves. Concretely, for the left code slot under rapid selections
routing → auth → error with the three promises resolving in reverse order,
the final displayed html is the markup of topic A's nextjsRoutingCode even
though the final props (topic C, error) are nextjsErrorCode. -/
theorem stale_highlight_applied :
    (cbRun (mountCodeBlock SourceText.nextjsRoutingCode "typescript") staleTrace).code
        = SourceText.nextjsErrorCode ∧
    (cbRun (mountCodeBlock SourceText.nextjsRoutingCode "typescript") staleTrace).pending = [] ∧
    (cbRun (mountCodeBlock SourceText.nextjsRoutingCode "typescript") staleTrace).html
        = some (codeToHtml SourceText.nextjsRoutingCode "typescript") ∧
    (cbRun (mountCodeBlock SourceText.nextjsRoutingCode "typescript") staleTrace).html
        ≠ some (codeToHtml SourceText.nextjsErrorCode "typescript") := by
  decide

/-- C2: for every text and every unsupported language identifier, a CodeBlock
whose highlight call has completed displays markup that contains the original
text unchanged and carries no styling; no failure state exists along the way
(the modelled collaborator degrades gracefully per the spec's external
interface contract). -/
theorem unsupported_lang_fallback (text lang : String) (is : List Nat)
    (hlang : isSupportedLang lang = false)
    (hdone : (cbRun (mountCodeBlock text lang) (resolvesOnly is)).pending = []) :
    ∃ m : Markup String,
      (cbRun (mountCodeBlock text lang) (resolvesOnly is)).html = some m ∧
      m.text = text ∧ m.styled = false := by
  refine ⟨codeToHtml text lang, cbRun_complete_html text lang is hdone, rfl, ?_⟩
  simp [codeToHtml, hlang]

/-- Witness for C2 at text "SELECT 1" and the spec's own unsupported
identifier, with the single schedule resolving the one pending call. -/
theorem unsupported_lang_fallback_witness :
    isSupportedLang "unsupported-language-xyz" = false ∧
    (cbRun (mountCodeBlock "SELECT 1" "unsupported-language-xyz")
        (resolvesOnly [0])).pending = [] ∧
    ∃ m : Markup String,
      (cbRun (mountCodeBlock "SELECT 1" "unsupported-language-xyz")
          (resolvesOnly [0])).html = some m ∧
      m.text = "SELECT 1" ∧ m.styled = false :=
  ⟨by decide, by decide,
    unsupported_lang_fallback "SELECT 1" "unsupported-language-xyz" [0]
      (by decide) (by decide)⟩

/-- C3: the comparisons record lookup succeeds (is non-null) on every TabType
value and getBlocks returns exactly two blocks for every TabType value: both
lookups are total over the closed enumeration. -/
theorem lookup_and_blocks_total :
    ∀ t : TabType, (comparisons t).isSome ∧ (getBlocks t).length = 2 := by
  intro t
  cases t <;> decide

/-- C4: tab auth yields a left code block titled "Next.js (Manual Per-Route)"
(containing "Manual Per-Route") and a right code block titled
"Hono (Middleware Chain)" (containing "Middleware Chain"); tab structure
yields exactly the two tree blocks "Next.js Route Handlers" then
"Hono Catch-All Handler". -/
theorem auth_and_structure_blocks :
    (getBlocks TabType.auth).get? 0
        = some (BlockItem.code SourceText.nextjsAuthCode "typescript" "Next.js (Manual Per-Route)") ∧
    containsStr "Next.js (Manual Per-Route)" "Manual Per-Route" ∧
    (getBlocks TabType.auth).get? 1
        = some (BlockItem.code SourceText.honoAuthCode "typescript" "Hono (Middleware Chain)") ∧
    containsStr "Hono (Middleware Chain)" "Middleware Chain" ∧
    getBlocks TabType.structure'
        = [ BlockItem.tree SourceText.nextjsFileTree "Next.js Route Handlers",
            BlockItem.tree SourceText.honoFileTree "Hono Catch-All Handler" ] := by
  refine ⟨by decide, ⟨"Next.js (", ")", by decide⟩, by decide,
    ⟨"Hono (", ")", by decide⟩, by decide⟩

/-- C5: activeTab is initialized to 'structure', the first id of the tabs
array and the first literal of the TabType union; it changes only through
selection (after any history, a selection of t leaves the state at exactly t,
and an empty history leaves the initial value); and every reachable value is
a member of the enumerated set. -/
theorem activeTab_lifecycle :
    initialTab = TabType.structure' ∧
    tabs.head?.map Prod.fst = some TabType.structure' ∧
    runSelections [] = initialTab ∧
    (∀ (evs : List TabType) (t : TabType), runSelections (evs ++ [t]) = t) ∧
    (∀ evs : List TabType,
      runSelections evs ∈
        [TabType.structure', TabType.auth, TabType.error, TabType.middleware,
          TabType.routing]) := by
  refine ⟨rfl, rfl, rfl, ?_, ?_⟩
  · intro evs t
    simp [runSelections, List.foldl_append, selectTab]
  · intro evs
    cases runSelections evs <;> simp

/-- C6: re-selecting the already selected topic is idempotent: after any
selection history, selecting t twice renders the same page as selecting t
once. -/
theorem select_idempotent (evs : List TabType) (t : TabType) :
    renderPage (runSelections (evs ++ [t, t])) = renderPage (runSelections (evs ++ [t])) := by
  simp [runSelections, List.foldl_append, selectTab]

/-- C7: highlight rendering is deterministic: two complete runs of a
CodeBlock with identical (text, language) props display byte-identical
markup, whatever the resolution schedules were, and that markup is the pure
function codeToHtml of the props. -/
theorem highlight_deterministic (c l : String) (is1 is2 : List Nat)
    (h1 : (cbRun (mountCodeBlock c l) (resolvesOnly is1)).pending = [])
    (h2 : (cbRun (mountCodeBlock c l) (resolvesOnly is2)).pending = []) :
    (cbRun (mountCodeBlock c l) (resolvesOnly is1)).html
      = (cbRun (mountCodeBlock c l) (resolvesOnly is2)).html := by
  rw [cbRun_complete_html c l is1 h1, cbRun_complete_html c l is2 h2]

/-- Witness for C7 at a concrete snippet with two different complete
schedules (the second one contains an extra no-op resolution). -/
theorem highlight_deterministic_witness :
    (cbRun (mountCodeBlock "const app = new Hono()" "typescript")
        (resolvesOnly [0])).pending = [] ∧
    (cbRun (mountCodeBlock "const app = new Hono()" "typescript")
        (resolvesOnly [3, 0])).pending = [] ∧
    (cbRun (mountCodeBlock "const app = new Hono()" "typescript")
        (resolvesOnly [0])).html
      = (cbRun (mountCodeBlock "const app = new Hono()" "typescript")
          (resolvesOnly [3, 0])).html :=
  ⟨by decide, by decide,
    highlight_deterministic "const app = new Hono()" "typescript" [0] [3, 0]
      (by decide) (by decide)⟩

/-- C8: FileTree is the identity on its tree text: the pre element receives
the prop string verbatim, for every input, and the renderer is a total
function. -/
theorem fileTree_identity :
    ∀ (tree title : String), (FileTree tree title).treeText = tree ∧
      (FileTree tree title).titleText = title :=
  fun _ _ => ⟨rfl, rfl⟩

/-- C9: the default branch of the getBlocks switch is unreachable: every
value of the closed TabType enumeration is handled by one of the five
explicit cases, so getBlocks never returns the default's empty list. -/
theorem getBlocks_never_empty : ∀ t : TabType, getBlocks t ≠ [] := by
  intro t
  cases t <;> decide

/-- C10: in every reachable state, the summary texts and the detail blocks
displayed by one render are derived from one and the same topic: the current
activeTab. -/
theorem summary_blocks_same_topic (evs : List TabType) :
    ∃ t : TabType,
      (comparisons t).map Comparison.nextjs
          = some (renderPage (runSelections evs)).summaryNextjs ∧
      (comparisons t).map Comparison.hono
          = some (renderPage (runSelections evs)).summaryHono ∧
      (renderPage (runSelections evs)).blocks = getBlocks t := by
  refine ⟨runSelections evs, ?_⟩
  rcases h : runSelections evs with _ | _ | _ | _ | _ <;> decide

end HonoVsNextjs
